import Mathlib

/-!
# Verification of the Daily Menu recommender (`recommender.py`, `database.py`)

Shallow embedding of the scoring / statistics / recommendation logic.

Modelling conventions:
* A calendar date is a `{year, month, day}` record.  The Python code stores
  dates as ISO `"YYYY-MM-DD"` strings and compares them lexicographically;
  for zero-padded ISO strings that order coincides with the lexicographic
  order on `(year, month, day)`, which is how `dateLe` models it.
* `datetime` subtraction `(now - last).days` equals the difference of the
  civil day ordinals of the two dates (the time-of-day component of `now`
  is in `[0, 1)` days and `timedelta.days` floors), so the clock is modelled
  as the current `Date` and subtraction as ordinal difference (`toOrdinal`,
  the standard civil-calendar day count with epoch 1970-01-01).
* Python's `datetime.weekday()` (Monday = 0 … Sunday = 6) is `weekday`,
  derived from the ordinal (1970-01-01 was a Thursday, weekday 3).
* Monetary amounts and scores are exact rationals (`ℚ`); Python's binary
  floating point is abstracted to exact arithmetic, and `round(x, n)` is
  modelled as exact round-half-to-even at `n` decimals (`roundTo`).
* Every function that calls `datetime.now()` in the source takes the
  current date `now : Date` as an explicit first argument.
* `pandas.DataFrame.sort_values(key, ascending=False)` goes through
  `pandas.core.sorting.nargsort`, which first reverses the values and the
  index array, then takes the ascending argsort, then reverses the
  resulting indexer; for the small frames this program sorts, numpy's
  introsort is its stable insertion sort, so the two reversals cancel on
  ties and tied rows keep their original order.  The descending sort is
  therefore modelled as reverse, stable ascending insertion sort, reverse.
-/

/-- A civil calendar date, as carried by the ISO `"YYYY-MM-DD"` strings of
`visit_history.json` and by `datetime` values. -/
structure Date where
  year : ℕ
  month : ℕ
  day : ℕ
deriving DecidableEq, Repr

/-- Civil day ordinal (days since 1970-01-01), the value underlying
`datetime` subtraction.  Standard civil-from-date computation. -/
def Date.toOrdinal (dt : Date) : ℤ :=
  let y : ℤ := if dt.month ≤ 2 then (dt.year : ℤ) - 1 else (dt.year : ℤ)
  let era : ℤ := (if 0 ≤ y then y else y - 399) / 400
  let yoe : ℤ := y - era * 400
  let mp : ℤ := ((dt.month : ℤ) + 9) % 12
  let doy : ℤ := (153 * mp + 2) / 5 + (dt.day : ℤ) - 1
  let doe : ℤ := yoe * 365 + yoe / 4 - yoe / 100 + doy
  era * 146097 + doe - 719468

/-- Inverse of `Date.toOrdinal` (date-from-civil), used to model
`(datetime.now() - timedelta(days=n)).strftime("%Y-%m-%d")`. -/
def Date.ofOrdinal (z0 : ℤ) : Date :=
  let z : ℤ := z0 + 719468
  let era : ℤ := (if 0 ≤ z then z else z - 146096) / 146097
  let doe : ℤ := z - era * 146097
  let yoe : ℤ := (doe - doe / 1460 + doe / 36524 - doe / 146096) / 365
  let y : ℤ := yoe + era * 400
  let doy : ℤ := doe - (365 * yoe + yoe / 4 - yoe / 100)
  let mp : ℤ := (5 * doy + 2) / 153
  let d : ℤ := doy - (153 * mp + 2) / 5 + 1
  let m : ℤ := if mp < 10 then mp + 3 else mp - 9
  { year := (if m ≤ 2 then y + 1 else y).toNat, month := m.toNat, day := d.toNat }

/-- Python `datetime.weekday()`: Monday = 0, …, Sunday = 6. -/
def Date.weekday (dt : Date) : ℕ :=
  ((dt.toOrdinal + 3) % 7).toNat

/-- ISO-string comparison `a <= b` on zero-padded dates: lexicographic on
`(year, month, day)`. -/
def dateLe (a b : Date) : Bool :=
  a.year < b.year ||
    (a.year = b.year && (a.month < b.month || (a.month = b.month && a.day ≤ b.day)))

/-- One row of the restaurant table (`data.tsv` after `load_restaurants`
renames the columns).  `specific_day` is `""` for unrestricted entries.
`price` is kept as an exact rational. -/
structure Restaurant where
  name : String
  area : String
  specific_day : String
  item : String
  travel_time : ℤ
  price : ℚ
deriving DecidableEq, Repr

/-- One record of `history["visits"]`. -/
structure Visit where
  date : Date
  restaurant : String
  price : ℚ
  item : String
deriving DecidableEq, Repr

/-- `round(x, nd)` on exact rationals: round half to even at `nd` decimal
digits (Python's rounding mode; binary-float representation artifacts are
abstracted away). -/
def roundTo (nd : ℕ) (q : ℚ) : ℚ :=
  let s : ℚ := q * (10 : ℚ) ^ nd
  let f : ℤ := Rat.floor s
  let r : ℚ := s - (f : ℚ)
  let n : ℤ :=
    if r < 1 / 2 then f
    else if 1 / 2 < r then f + 1
    else if f % 2 = 0 then f else f + 1
  (n : ℚ) / (10 : ℚ) ^ nd

/-! ## `recommender.py` -/

/-- `WORK_DAYS = {6: "Sunday", 0: "Monday", 1: "Tuesday", 2: "Wednesday",
3: "Thursday"}`, as the lookup `get_day_name` performs (`.get(weekday, "")`). -/
def get_day_name (date : Date) : String :=
  match date.weekday with
  | 6 => "Sunday"
  | 0 => "Monday"
  | 1 => "Tuesday"
  | 2 => "Wednesday"
  | 3 => "Thursday"
  | _ => ""

/-- `is_work_day`: the weekday is a key of `WORK_DAYS`. -/
def is_work_day (date : Date) : Bool :=
  date.weekday = 6 || date.weekday = 0 || date.weekday = 1 ||
    date.weekday = 2 || date.weekday = 3

/-- `is_thursday`: `date.weekday() == THURSDAY` with `THURSDAY = 3`. -/
def is_thursday (date : Date) : Bool :=
  date.weekday = 3

/-- `get_month_visits(history)` for the current month: visits whose ISO date
starts with `f"{year:04d}-{month:02d}"`, i.e. whose year and month equal the
current ones.  `history` is the `visits` list; `now` is `datetime.now()`. -/
def get_month_visits (now : Date) (history : List Visit) : List Visit :=
  history.filter (fun v => v.date.year = now.year && v.date.month = now.month)

/-- The dict returned by `get_monthly_stats`. -/
structure MonthlyStats where
  days_visited : ℕ
  total_spent : ℚ
  current_average : ℚ
  status : String
  target_daily : ℚ
deriving DecidableEq, Repr

/-- `get_monthly_stats(history)`.  Note the status bands are judged on the
unrounded average while the returned `current_average` is rounded to one
decimal. -/
def get_monthly_stats (now : Date) (history : List Visit) : MonthlyStats :=
  let visits := get_month_visits now history
  if visits.isEmpty then
    { days_visited := 0, total_spent := 0, current_average := 0,
      status := "green", target_daily := 22.5 }
  else
    let days_visited := visits.length
    let total_spent : ℚ := (visits.map (·.price)).sum
    let current_average : ℚ := total_spent / days_visited
    let status : String :=
      if current_average < 20 then "green"
      else if current_average ≤ 25 then "yellow"
      else "red"
    { days_visited := days_visited, total_spent := total_spent,
      current_average := roundTo 1 current_average,
      status := status, target_daily := 22.5 }

/-- `get_recent_visits(history, days)`: visits whose ISO date string is
`>=` the ISO string of `now - days` (string comparison modelled by `dateLe`
on the civil date `Date.ofOrdinal (now.toOrdinal - days)`). -/
def get_recent_visits (now : Date) (history : List Visit) (days : ℤ) : List Visit :=
  let cutoff := Date.ofOrdinal (now.toOrdinal - days)
  history.filter (fun v => dateLe cutoff v.date)

/-- `get_recent_restaurant_names(history, days)`: the restaurant names of
the recent visits (a Python `set`, modelled as a list queried only by
membership). -/
def get_recent_restaurant_names (now : Date) (history : List Visit) (days : ℤ) :
    List String :=
  (get_recent_visits now history days).map (·.restaurant)

/-- `get_available_restaurants(restaurants, date)`: empty on a non-work
day, else the rows whose `specific_day` is `""` or case-insensitively
equals the day name. -/
def get_available_restaurants (restaurants : List Restaurant) (date : Date) :
    List Restaurant :=
  let day_name := get_day_name date
  if day_name = "" then []
  else
    restaurants.filter (fun r =>
      r.specific_day = "" || r.specific_day.toLower = day_name.toLower)

/-- Latest (ISO-maximum) visit date of a nonempty visit list, as Python's
`max` over the date strings. -/
def maxVisitDate (v : Visit) (vs : List Visit) : Date :=
  vs.foldl (fun acc w => if dateLe acc w.date then w.date else acc) v.date

/-- `get_days_since_visit(name, history)`: `999` if never visited, else
`(datetime.now() - last_visit_date).days`, i.e. the ordinal difference
(negative if the last visit is dated after `now`). -/
def get_days_since_visit (now : Date) (name : String) (history : List Visit) : ℤ :=
  match history.filter (fun v => v.restaurant = name) with
  | [] => 999
  | v :: vs => now.toOrdinal - (maxVisitDate v vs).toOrdinal

/-- `min(days_since_visit, 30) / 30`, the recency formula of
`calculate_scores`. -/
def recencyScore (d : ℤ) : ℚ :=
  ((min d 30 : ℤ) : ℚ) / 30

/-- One row of the scored frame produced by `calculate_scores`. -/
structure Scored where
  name : String
  area : String
  specific_day : String
  item : String
  travel_time : ℤ
  price : ℚ
  days_since_visit : ℤ
  recency_score : ℚ
  budget_score : ℚ
  final_score : ℚ
deriving DecidableEq, Repr

/-- The `budget_score` column of `calculate_scores`: `0.5` on Thursday,
else banded on `stats["current_average"]`. -/
def budgetScore (thursday : Bool) (current_avg : ℚ) (price : ℚ) : ℚ :=
  if thursday then 0.5
  else if current_avg > 25 then 1 - price / 40
  else if current_avg < 20 then price / 40
  else 0.5

/-- `calculate_scores(restaurants, history, date)`: per-row recency,
budget and final scores.  `now` is the `datetime.now()` consulted by
`get_days_since_visit` and `get_monthly_stats`. -/
def calculate_scores (now : Date) (restaurants : List Restaurant)
    (history : List Visit) (date : Date) : List Scored :=
  let stats := get_monthly_stats now history
  let thursday := is_thursday date
  restaurants.map (fun r =>
    let dsv := get_days_since_visit now r.name history
    let recency := recencyScore dsv
    let budget := budgetScore thursday stats.current_average r.price
    let final := if thursday then recency else recency * 0.5 + budget * 0.5
    { name := r.name, area := r.area, specific_day := r.specific_day,
      item := r.item, travel_time := r.travel_time, price := r.price,
      days_since_visit := dsv, recency_score := recency,
      budget_score := budget, final_score := final })

/-- Stable insertion into a list ascending on `final_score`: the new
element goes before the first strictly greater one (numpy's insertion
sort shifts while strictly less, which is the same stable order). -/
def insertAsc (x : Scored) : List Scored → List Scored
  | [] => [x]
  | y :: ys => if x.final_score ≤ y.final_score then x :: y :: ys else y :: insertAsc x ys

/-- Stable ascending sort on `final_score` (numpy's stable small-array
argsort order applied to the rows). -/
def sortAsc : List Scored → List Scored
  | [] => []
  | x :: xs => insertAsc x (sortAsc xs)

/-- `df.sort_values("final_score", ascending=False)`: pandas `nargsort`
reverses the rows, takes the stable ascending argsort, and reverses the
resulting indexer, so tied rows keep their original relative order
(a stable descending sort). -/
def sort_values_desc (l : List Scored) : List Scored :=
  (sortAsc l.reverse).reverse

/-- The dict returned by `get_recommendation` (scores rounded to two
decimals). -/
structure Recommendation where
  name : String
  area : String
  item : String
  price : ℚ
  travel_time : ℤ
  days_since_visit : ℤ
  recency_score : ℚ
  budget_score : ℚ
  final_score : ℚ
deriving DecidableEq, Repr

/-- The dict construction at the end of `get_recommendation`. -/
def toRecommendation (s : Scored) : Recommendation :=
  { name := s.name, area := s.area, item := s.item, price := s.price,
    travel_time := s.travel_time, days_since_visit := s.days_since_visit,
    recency_score := roundTo 2 s.recency_score,
    budget_score := roundTo 2 s.budget_score,
    final_score := roundTo 2 s.final_score }

/-- `get_recommendation(restaurants, history, date)`: `None` when not a
work day or no restaurant is available; otherwise the 7-day exclusion,
the fallback to the full available set, scoring, and
`sort_values("final_score", ascending=False).iloc[0]`. -/
def get_recommendation (now : Date) (restaurants : List Restaurant)
    (history : List Visit) (date : Date) : Option Recommendation :=
  if ¬ is_work_day date then none
  else
    let available := get_available_restaurants restaurants date
    if available.isEmpty then none
    else
      let recent := get_recent_restaurant_names now history 7
      let notRecent := available.filter (fun r => ¬ recent.contains r.name)
      let candidates :=
        if notRecent.isEmpty then get_available_restaurants restaurants date
        else notRecent
      let scored := calculate_scores now candidates history date
      (sort_values_desc scored).head?.map toRecommendation

/-- The budget/Thursday sentences appended to `parts` by
`explain_recommendation` (the branch on lines 219–230).  Numeric
interpolation is modelled by `toString` of the exact rational. -/
def budgetParts (thursday : Bool) (price : ℚ) (avg : ℚ) : List String :=
  if ¬ thursday then
    if avg > 25 then
      ["At " ++ toString price ++
        " SAR, this helps bring your monthly average down from " ++
        toString avg ++ " SAR."]
    else if avg < 20 ∧ price > 25 then
      ["Your average is low (" ++ toString avg ++
        " SAR), so you can treat yourself today!"]
    else if 20 ≤ avg ∧ avg ≤ 25 then
      ["Your monthly average (" ++ toString avg ++ " SAR) is on track."]
    else []
  else
    ["It\x27s Thursday! Treat yourself - no budget restrictions today."]

/-- The recency sentences appended to `parts` by `explain_recommendation`. -/
def recencyParts (days : ℤ) : List String :=
  if days ≥ 999 then ["You\x27ve never been here before!"]
  else if days > 14 then
    ["It\x27s been " ++ toString days ++ " days since your last visit."]
  else if days > 7 then
    ["Last visited " ++ toString days ++ " days ago."]
  else []

/-- `explain_recommendation(recommendation, history, date)`: the recency
clause, then the budget/Thursday clause, joined with single spaces. -/
def explain_recommendation (now : Date) (recommendation : Recommendation)
    (history : List Visit) (date : Date) : String :=
  let stats := get_monthly_stats now history
  let thursday := is_thursday date
  let parts := recencyParts recommendation.days_since_visit ++
    budgetParts thursday recommendation.price stats.current_average
  String.intercalate " " parts

/-! ## `database.py` (pure core of the history mutations) -/

/-- The pure list transformation of `add_visit`: append one visit built
from the arguments (`date` is the explicit argument or today's date;
callers here always pass it explicitly). -/
def add_visit (visits : List Visit) (restaurant : String) (price : ℚ)
    (item : String) (date : Date) : List Visit :=
  visits ++ [{ date := date, restaurant := restaurant, price := price, item := item }]

/-- The pure list transformation of `delete_visit`: drop every visit whose
`(date, restaurant)` pair matches exactly. -/
def delete_visit (visits : List Visit) (date : Date) (restaurant : String) :
    List Visit :=
  visits.filter (fun v => ¬ (v.date = date ∧ v.restaurant = restaurant))

/-! ## Derived definitions used to state and prove the theorems -/

/-- The candidate list that `get_recommendation` ends up scoring: the
available restaurants minus the ones visited in the trailing 7 days,
falling back to the full available list when that is empty (the
`available` reassignments on lines 169–180 of `recommender.py`). -/
def recCandidates (now : Date) (restaurants : List Restaurant)
    (history : List Visit) (date : Date) : List Restaurant :=
  let available := get_available_restaurants restaurants date
  let recent := get_recent_restaurant_names now history 7
  let notRecent := available.filter (fun r => ¬ recent.contains r.name)
  if notRecent.isEmpty then get_available_restaurants restaurants date
  else notRecent

/-- Pick the better of `x` and an optional current best, preferring the
current best on ties (so a later `x` wins a tie only when it is the one
folded in later). -/
def combMax (x : Scored) : Option Scored → Scored
  | none => x
  | some z => if x.final_score ≤ z.final_score then z else x

/-- The maximum of `final_score` in a row list, preferring the LAST of
equal maxima of its argument.  `sort_values_desc` places
`amaxLast l.reverse` first, which is the FIRST tied occurrence of the
maximum in the original order of `l`. -/
def amaxLast : List Scored → Option Scored
  | [] => none
  | x :: xs => some (combMax x (amaxLast xs))

/-! ## Helper lemmas -/

lemma getLast?_mem {α : Type} : ∀ {l : List α} {z : α}, l.getLast? = some z → z ∈ l
  | [], _, h => by simp at h
  | [a], z, h => by
      simp only [List.getLast?_singleton, Option.some.injEq] at h
      simp [h]
  | a :: b :: l, z, h => by
      rw [List.getLast?_cons_cons] at h
      exact List.mem_cons_of_mem a (getLast?_mem h)

lemma getLast?_cons_ne {α : Type} (a : α) {l : List α} (h : l ≠ []) :
    (a :: l).getLast? = l.getLast? := by
  cases l with
  | nil => exact absurd rfl h
  | cons b t => exact List.getLast?_cons_cons

/-- Sortedness predicate of the ascending pass: pairwise `final_score ≤`. -/
def ScoreSorted (l : List Scored) : Prop :=
  List.Pairwise (fun a b : Scored => a.final_score ≤ b.final_score) l

lemma insertAsc_ne_nil (x : Scored) (l : List Scored) : insertAsc x l ≠ [] := by
  cases l with
  | nil => simp [insertAsc]
  | cons y ys =>
      unfold insertAsc
      by_cases h : x.final_score ≤ y.final_score <;> simp [h]

lemma mem_insertAsc {a x : Scored} : ∀ {l : List Scored},
    a ∈ insertAsc x l ↔ a = x ∨ a ∈ l
  | [] => by simp [insertAsc]
  | y :: ys => by
      unfold insertAsc
      by_cases h : x.final_score ≤ y.final_score
      · simp [h]
      · simp only [h, if_false, List.mem_cons, @mem_insertAsc a x ys]
        tauto

lemma insertAsc_sorted {x : Scored} : ∀ {l : List Scored},
    ScoreSorted l → ScoreSorted (insertAsc x l)
  | [], _ => by simp [insertAsc, ScoreSorted]
  | y :: ys, h => by
      rcases (List.pairwise_cons).1 h with ⟨hy, hys⟩
      unfold insertAsc
      by_cases hxy : x.final_score ≤ y.final_score
      · simp only [hxy, if_true]
        refine (List.pairwise_cons).2 ⟨?_, h⟩
        intro b hb
        rcases List.mem_cons.1 hb with rfl | hb
        · exact hxy
        · exact le_trans hxy (hy b hb)
      · simp only [hxy, if_false]
        refine (List.pairwise_cons).2 ⟨?_, insertAsc_sorted hys⟩
        intro b hb
        rcases mem_insertAsc.1 hb with rfl | hb
        · exact le_of_lt (lt_of_not_le hxy)
        · exact hy b hb

lemma getLast?_cons_isSome {α : Type} (a : α) : ∀ (l : List α),
    ∃ z, (a :: l).getLast? = some z
  | [] => ⟨a, rfl⟩
  | b :: t => by
      rw [List.getLast?_cons_cons]
      exact getLast?_cons_isSome b t

lemma getLast?_insertAsc {x : Scored} : ∀ {l : List Scored}, ScoreSorted l →
    (insertAsc x l).getLast? = some (combMax x l.getLast?)
  | [], _ => by simp [insertAsc, combMax]
  | y :: ys, h => by
      rcases (List.pairwise_cons).1 h with ⟨hy, hys⟩
      unfold insertAsc
      by_cases hxy : x.final_score ≤ y.final_score
      · simp only [hxy, if_true]
        rw [List.getLast?_cons_cons]
        obtain ⟨z, hlast⟩ := getLast?_cons_isSome y ys
        have hzmem : z ∈ y :: ys := getLast?_mem hlast
        have hxz : x.final_score ≤ z.final_score := by
          rcases List.mem_cons.1 hzmem with rfl | hz
          · exact hxy
          · exact le_trans hxy (hy z hz)
        rw [hlast]
        simp [combMax, hxz]
      · simp only [hxy, if_false]
        rw [getLast?_cons_ne y (insertAsc_ne_nil x ys)]
        rw [getLast?_insertAsc hys]
        cases ys with
        | nil => simp [combMax, hxy]
        | cons b t =>
            rw [getLast?_cons_ne y (by simp)]

lemma sortAsc_sorted : ∀ (l : List Scored), ScoreSorted (sortAsc l)
  | [] => by simp [sortAsc, ScoreSorted]
  | x :: xs => by
      unfold sortAsc
      exact insertAsc_sorted (sortAsc_sorted xs)

lemma mem_sortAsc {a : Scored} : ∀ {l : List Scored}, a ∈ sortAsc l ↔ a ∈ l
  | [] => by simp [sortAsc]
  | x :: xs => by
      unfold sortAsc
      rw [mem_insertAsc, @mem_sortAsc a xs]
      simp

lemma getLast?_sortAsc : ∀ (l : List Scored), (sortAsc l).getLast? = amaxLast l
  | [] => by simp [sortAsc, amaxLast]
  | x :: xs => by
      unfold sortAsc amaxLast
      rw [getLast?_insertAsc (sortAsc_sorted xs), getLast?_sortAsc xs]

lemma amaxLast_eq_none : ∀ {l : List Scored}, amaxLast l = none ↔ l = []
  | [] => by simp [amaxLast]
  | x :: xs => by simp [amaxLast]

/-- `amaxLast` returns the last occurrence of the maximal `final_score`:
everything before it scores `≤`, everything after it scores `<`. -/
lemma amaxLast_split : ∀ {l : List Scored} {s : Scored}, amaxLast l = some s →
    ∃ pre post, l = pre ++ s :: post ∧
      (∀ a ∈ pre, a.final_score ≤ s.final_score) ∧
      (∀ a ∈ post, a.final_score < s.final_score)
  | [], s, h => by simp [amaxLast] at h
  | x :: xs, s, h => by
      simp only [amaxLast, Option.some.injEq] at h
      rcases hxs : amaxLast xs with _ | z
      · have hnil : xs = [] := amaxLast_eq_none.1 hxs
        subst hnil
        rw [hxs] at h
        simp only [combMax] at h
        subst h
        exact ⟨[], [], rfl, by simp, by simp⟩
      · rw [hxs] at h
        simp only [combMax] at h
        obtain ⟨pre, post, hsplit, hpre, hpost⟩ := amaxLast_split hxs
        by_cases hle : x.final_score ≤ z.final_score
        · rw [if_pos hle] at h
          subst h
          refine ⟨x :: pre, post, by simp [hsplit], ?_, hpost⟩
          intro a ha
          rcases List.mem_cons.1 ha with rfl | ha
          · exact hle
          · exact hpre a ha
        · rw [if_neg hle] at h
          subst h
          refine ⟨[], xs, rfl, by simp, ?_⟩
          intro a ha
          have hzx : z.final_score < x.final_score := lt_of_not_le hle
          rw [hsplit] at ha
          rcases List.mem_append.1 ha with ha | ha
          · exact lt_of_le_of_lt (hpre a ha) hzx
          · rcases List.mem_cons.1 ha with rfl | ha
            · exact hzx
            · exact lt_trans (hpost a ha) hzx

lemma amaxLast_mem {l : List Scored} {s : Scored} (h : amaxLast l = some s) :
    s ∈ l := by
  obtain ⟨pre, post, hsplit, -, -⟩ := amaxLast_split h
  rw [hsplit]
  simp

lemma get_recommendation_unfold (now : Date) (restaurants : List Restaurant)
    (history : List Visit) (date : Date) :
    get_recommendation now restaurants history date =
      if ¬ is_work_day date then none
      else if (get_available_restaurants restaurants date).isEmpty then none
      else
        (sort_values_desc
          (calculate_scores now (recCandidates now restaurants history date)
            history date)).head?.map toRecommendation := rfl

lemma get_available_restaurants_nil (date : Date) :
    get_available_restaurants [] date = [] := by
  unfold get_available_restaurants
  by_cases h : get_day_name date = "" <;> simp [h]

lemma recCandidates_ne_nil {now : Date} {restaurants : List Restaurant}
    {history : List Visit} {date : Date}
    (ha : get_available_restaurants restaurants date ≠ []) :
    recCandidates now restaurants history date ≠ [] := by
  simp only [recCandidates]
  split
  · exact ha
  · next h => exact List.isEmpty_eq_false.1 (Bool.eq_false_iff.2 h)

lemma calculate_scores_ne_nil {now : Date} {restaurants : List Restaurant}
    {history : List Visit} {date : Date} (h : restaurants ≠ []) :
    calculate_scores now restaurants history date ≠ [] := by
  unfold calculate_scores
  simpa using h

/-- On a work day with an available restaurant, `get_recommendation`
returns the row selected by `amaxLast` on the REVERSED scored candidate
list — i.e. the first occurrence of the maximal `final_score` in input
order. -/
lemma get_recommendation_some {now : Date} {restaurants : List Restaurant}
    {history : List Visit} {date : Date}
    (hw : is_work_day date = true)
    (ha : get_available_restaurants restaurants date ≠ []) :
    ∃ s, amaxLast (calculate_scores now (recCandidates now restaurants history date)
        history date).reverse = some s ∧
      get_recommendation now restaurants history date = some (toRecommendation s) := by
  have hscored := @calculate_scores_ne_nil now
    (recCandidates now restaurants history date) history date
    (@recCandidates_ne_nil now restaurants history date ha)
  have hrev : (calculate_scores now (recCandidates now restaurants history date)
      history date).reverse ≠ [] := by
    intro hc
    exact hscored (List.reverse_eq_nil_iff.1 hc)
  rcases hmax : amaxLast (calculate_scores now
      (recCandidates now restaurants history date) history date).reverse with _ | s
  · exact absurd (amaxLast_eq_none.1 hmax) hrev
  · refine ⟨s, rfl, ?_⟩
    have hne : (get_available_restaurants restaurants date).isEmpty = false :=
      List.isEmpty_eq_false.2 ha
    rw [get_recommendation_unfold, if_neg (by simp [hw]), if_neg (by simp [hne])]
    simp only [sort_values_desc]
    rw [List.head?_reverse, getLast?_sortAsc, hmax]
    rfl

lemma mem_calculate_scores {now : Date} {restaurants : List Restaurant}
    {history : List Visit} {date : Date} {s : Scored}
    (h : s ∈ calculate_scores now restaurants history date) :
    s.name ∈ restaurants.map (·.name) := by
  unfold calculate_scores at h
  obtain ⟨r, hr, rfl⟩ := List.mem_map.1 h
  exact List.mem_map.2 ⟨r, hr, rfl⟩

lemma calculate_scores_spec {now : Date} {restaurants : List Restaurant}
    {history : List Visit} {date : Date} {s : Scored}
    (hs : s ∈ calculate_scores now restaurants history date) :
    ∃ r ∈ restaurants, s.name = r.name ∧ s.price = r.price ∧
      s.days_since_visit = get_days_since_visit now r.name history ∧
      s.recency_score = recencyScore (get_days_since_visit now r.name history) ∧
      s.budget_score = budgetScore (is_thursday date)
        (get_monthly_stats now history).current_average r.price ∧
      s.final_score = (if is_thursday date then s.recency_score
        else s.recency_score * 0.5 + s.budget_score * 0.5) := by
  obtain ⟨r, hr, rfl⟩ := List.mem_map.1 hs
  exact ⟨r, hr, rfl, rfl, rfl, rfl, rfl, rfl⟩

/-- C1: on a non-special (non-Thursday) work day every scored row's
`budget_score` is determined by the current monthly average: `1 - price/40`
when the average exceeds 25 (not clamped), `price/40` when it is below 20,
and exactly `0.5` when it lies in `[20, 25]`, regardless of price. -/
theorem c1_budget_score_bands (now : Date) (restaurants : List Restaurant)
    (history : List Visit) (date : Date) (s : Scored)
    (_hw : is_work_day date = true) (ht : is_thursday date = false)
    (hs : s ∈ calculate_scores now restaurants history date) :
    ((get_monthly_stats now history).current_average > 25 →
      s.budget_score = 1 - s.price / 40) ∧
    ((get_monthly_stats now history).current_average < 20 →
      s.budget_score = s.price / 40) ∧
    (20 ≤ (get_monthly_stats now history).current_average →
      (get_monthly_stats now history).current_average ≤ 25 →
      s.budget_score = 0.5) := by
  obtain ⟨r, hr, -, hprice, -, -, hbud, -⟩ := calculate_scores_spec hs
  rw [hbud, hprice, ht]
  unfold budgetScore
  refine ⟨?_, ?_, ?_⟩
  · intro h1
    rw [if_neg (by simp), if_pos h1]
  · intro h1
    rw [if_neg (by simp), if_neg (by linarith), if_pos h1]
  · intro h1 h2
    rw [if_neg (by simp), if_neg (by linarith), if_neg (by linarith)]

/-- Witness for C1 at a concrete under-budget input (empty history, so the
current average is 0 and the band `average < 20` applies). -/
theorem c1_budget_score_bands_witness :
    (⟨"A", "a", "", "i", 5, 30, 999, 1, 3/4, 7/8⟩ : Scored) ∈
      calculate_scores ⟨1970, 1, 20⟩ [⟨"A", "a", "", "i", 5, 30⟩] [] ⟨1970, 1, 5⟩ ∧
    (⟨"A", "a", "", "i", 5, 30, 999, 1, 3/4, 7/8⟩ : Scored).budget_score =
      (⟨"A", "a", "", "i", 5, 30, 999, 1, 3/4, 7/8⟩ : Scored).price / 40 :=
  ⟨by norm_num [calculate_scores, get_monthly_stats, get_month_visits, get_days_since_visit,
      maxVisitDate, recencyScore, budgetScore, is_thursday, Date.weekday, Date.toOrdinal,
      Int.toNat],
   (c1_budget_score_bands ⟨1970, 1, 20⟩ [⟨"A", "a", "", "i", 5, 30⟩] []
      ⟨1970, 1, 5⟩ ⟨"A", "a", "", "i", 5, 30, 999, 1, 3/4, 7/8⟩
      (by decide) (by decide) (by norm_num [calculate_scores, get_monthly_stats, get_month_visits, get_days_since_visit,
      maxVisitDate, recencyScore, budgetScore, is_thursday, Date.weekday, Date.toOrdinal,
      Int.toNat])).2.1 (by decide)⟩

/-- C2 (counterexample): a history holding a visit dated after the current
date produces `days_since_visit = -2` and a `recency_score` of `-1/15`,
outside `[0, 1]`. -/
theorem c2_counterexample :
    (calculate_scores ⟨1970, 1, 10⟩ [⟨"A", "a", "", "i", 5, 10⟩]
        [⟨⟨1970, 1, 12⟩, "A", 10, "i"⟩] ⟨1970, 1, 5⟩).map (·.recency_score) =
      [-(1/15)] ∧
    ¬ (0 ≤ (-(1/15) : ℚ)) := by
  constructor
  · norm_num [calculate_scores, get_monthly_stats, get_month_visits, get_days_since_visit,
      maxVisitDate, recencyScore, budgetScore, is_thursday, Date.weekday, Date.toOrdinal,
      Int.toNat]
  · norm_num

/-- C2 (amended): `recency_score = min(days_since_visit, 30) / 30` holds for
every scored row; the map is monotonically non-decreasing and saturates at 1
from 30 days on (sentinel 999 included), and it lies in `[0, 1]` whenever
`days_since_visit` is non-negative — a negative `days_since_visit`
(future-dated visit) yields a negative score. -/
theorem c2_recency_score (d e : ℤ) :
    (d ≤ e → recencyScore d ≤ recencyScore e) ∧
    (0 ≤ d → 0 ≤ recencyScore d ∧ recencyScore d ≤ 1) ∧
    (30 ≤ d → recencyScore d = 1) ∧
    recencyScore 999 = 1 ∧
    (∀ (now : Date) (restaurants : List Restaurant) (history : List Visit)
      (date : Date),
      (calculate_scores now restaurants history date).map (·.recency_score) =
        restaurants.map
          (fun r => recencyScore (get_days_since_visit now r.name history))) := by
  refine ⟨?_, ?_, ?_, by norm_num [recencyScore], ?_⟩
  · intro h
    unfold recencyScore
    rw [div_le_div_iff_of_pos_right (by norm_num)]
    exact_mod_cast min_le_min h le_rfl
  · intro h
    unfold recencyScore
    constructor
    · positivity
    · rw [div_le_one (by norm_num)]
      exact_mod_cast min_le_right d 30
  · intro h
    unfold recencyScore
    rw [min_eq_right h]
    norm_num
  · intro now restaurants history date
    unfold calculate_scores
    rw [List.map_map]
    rfl

/-- Witness for C2 (amended) at days 0 and 31. -/
theorem c2_recency_score_witness :
    recencyScore 0 ≤ recencyScore 31 ∧
    (0 ≤ recencyScore 0 ∧ recencyScore 0 ≤ 1) ∧
    recencyScore 31 = 1 :=
  ⟨(c2_recency_score 0 31).1 (by decide),
   (c2_recency_score 0 31).2.1 (by decide),
   (c2_recency_score 31 0).2.2.1 (by decide)⟩

/-- C3: on Thursday every scored row's `final_score` equals its
`recency_score` exactly; on a non-Thursday work day it equals
`0.5 * recency_score + 0.5 * budget_score`. -/
theorem c3_final_score (now : Date) (restaurants : List Restaurant)
    (history : List Visit) (date : Date) (s : Scored)
    (hs : s ∈ calculate_scores now restaurants history date) :
    (is_thursday date = true → s.final_score = s.recency_score) ∧
    (is_work_day date = true → is_thursday date = false →
      s.final_score = 0.5 * s.recency_score + 0.5 * s.budget_score) := by
  obtain ⟨r, hr, -, -, -, -, -, hfin⟩ := calculate_scores_spec hs
  constructor
  · intro ht
    rw [hfin, if_pos ht]
  · intro _ ht
    rw [hfin, if_neg (by simp [ht])]
    ring

/-- Witness for C3: a Thursday row (final = recency) and a Monday row
(final = half recency plus half budget). -/
theorem c3_final_score_witness :
    ((⟨"A", "a", "", "i", 5, 30, 999, 1, 1/2, 1⟩ : Scored).final_score =
      (⟨"A", "a", "", "i", 5, 30, 999, 1, 1/2, 1⟩ : Scored).recency_score) ∧
    ((⟨"A", "a", "", "i", 5, 30, 999, 1, 3/4, 7/8⟩ : Scored).final_score =
      0.5 * (⟨"A", "a", "", "i", 5, 30, 999, 1, 3/4, 7/8⟩ : Scored).recency_score +
      0.5 * (⟨"A", "a", "", "i", 5, 30, 999, 1, 3/4, 7/8⟩ : Scored).budget_score) :=
  ⟨(c3_final_score ⟨1970, 1, 20⟩ [⟨"A", "a", "", "i", 5, 30⟩] [] ⟨1970, 1, 8⟩
      ⟨"A", "a", "", "i", 5, 30, 999, 1, 1/2, 1⟩ (by norm_num [calculate_scores, get_monthly_stats, get_month_visits, get_days_since_visit,
      maxVisitDate, recencyScore, budgetScore, is_thursday, Date.weekday, Date.toOrdinal,
      Int.toNat])).1 (by decide),
   (c3_final_score ⟨1970, 1, 20⟩ [⟨"A", "a", "", "i", 5, 30⟩] [] ⟨1970, 1, 5⟩
      ⟨"A", "a", "", "i", 5, 30, 999, 1, 3/4, 7/8⟩ (by norm_num [calculate_scores, get_monthly_stats, get_month_visits, get_days_since_visit,
      maxVisitDate, recencyScore, budgetScore, is_thursday, Date.weekday, Date.toOrdinal,
      Int.toNat])).2 (by decide) (by decide)⟩

/-- C4: `get_monthly_stats` returns the zeroed green stats with target 22.5
when the current month has no visits; otherwise it counts the month's
visits, sums their prices, reports the average rounded to one decimal, and
classifies the (unrounded) average as green below 20, yellow in `[20, 25]`,
red above 25. -/
theorem c4_monthly_stats (now : Date) (history : List Visit) :
    (get_month_visits now history = [] →
      get_monthly_stats now history =
        { days_visited := 0, total_spent := 0, current_average := 0,
          status := "green", target_daily := 22.5 }) ∧
    (∀ avg : ℚ, get_month_visits now history ≠ [] →
      avg = ((get_month_visits now history).map (·.price)).sum /
        ((get_month_visits now history).length : ℚ) →
      (get_monthly_stats now history).days_visited =
          (get_month_visits now history).length ∧
      (get_monthly_stats now history).total_spent =
          ((get_month_visits now history).map (·.price)).sum ∧
      (get_monthly_stats now history).current_average = roundTo 1 avg ∧
      (get_monthly_stats now history).target_daily = 22.5 ∧
      (avg < 20 → (get_monthly_stats now history).status = "green") ∧
      (20 ≤ avg → avg ≤ 25 → (get_monthly_stats now history).status = "yellow") ∧
      (25 < avg → (get_monthly_stats now history).status = "red")) := by
  constructor
  · intro h
    simp only [get_monthly_stats]
    rw [if_pos (by simp [h])]
  · intro avg hne havg
    have hemp : (get_month_visits now history).isEmpty = false :=
      List.isEmpty_eq_false.2 hne
    subst havg
    simp only [get_monthly_stats]
    rw [if_neg (by simp [hemp])]
    refine ⟨rfl, rfl, rfl, rfl, ?_, ?_, ?_⟩
    · intro h
      rw [if_pos h]
    · intro h1 h2
      rw [if_neg (by linarith), if_pos h2]
    · intro h
      rw [if_neg (by linarith), if_neg (by linarith)]

/-- Witness for C4: the empty history gives zeroed green stats; a single
30-SAR January visit gives a red average of 30. -/
theorem c4_monthly_stats_witness :
    get_monthly_stats ⟨1970, 1, 20⟩ [] =
      { days_visited := 0, total_spent := 0, current_average := 0,
        status := "green", target_daily := 22.5 } ∧
    (get_monthly_stats ⟨1970, 1, 20⟩ [⟨⟨1970, 1, 3⟩, "A", 30, "i"⟩]).status = "red" ∧
    (get_monthly_stats ⟨1970, 1, 20⟩ [⟨⟨1970, 1, 3⟩, "A", 30, "i"⟩]).current_average =
      roundTo 1 30 :=
  ⟨(c4_monthly_stats ⟨1970, 1, 20⟩ []).1 (by decide),
   ((c4_monthly_stats ⟨1970, 1, 20⟩ [⟨⟨1970, 1, 3⟩, "A", 30, "i"⟩]).2 30
      (by decide) (by norm_num [get_month_visits])).2.2.2.2.2.2 (by norm_num),
   ((c4_monthly_stats ⟨1970, 1, 20⟩ [⟨⟨1970, 1, 3⟩, "A", 30, "i"⟩]).2 30
      (by decide) (by norm_num [get_month_visits])).2.2.1⟩

/-- C5: `get_recommendation` returns `none` exactly when the date is not a
work day, the restaurant set is empty, or no restaurant is available on
that day; in every other case it returns a recommendation (the embedding
is total, so no exception is possible). -/
theorem c5_none_iff (now : Date) (restaurants : List Restaurant)
    (history : List Visit) (date : Date) :
    get_recommendation now restaurants history date = none ↔
      (is_work_day date = false ∨ restaurants = [] ∨
        get_available_restaurants restaurants date = []) := by
  constructor
  · intro h
    by_cases hw : is_work_day date = true
    · by_cases ha : get_available_restaurants restaurants date = []
      · exact Or.inr (Or.inr ha)
      · obtain ⟨s, -, hsome⟩ := get_recommendation_some hw ha
        rw [h] at hsome
        cases hsome
    · exact Or.inl (Bool.eq_false_iff.2 hw)
  · intro h
    rcases h with h | h | h
    · rw [get_recommendation_unfold, if_pos (by simp [h])]
    · subst h
      by_cases hw : is_work_day date = true
      · rw [get_recommendation_unfold, if_neg (by simp [hw]),
          if_pos (by simp [get_available_restaurants_nil])]
      · rw [get_recommendation_unfold, if_pos hw]
    · by_cases hw : is_work_day date = true
      · rw [get_recommendation_unfold, if_neg (by simp [hw]), if_pos (by simp [h])]
      · rw [get_recommendation_unfold, if_pos hw]

/-- C6: on a work day with at least one available restaurant, when the
7-day exclusion empties the candidate set the recommendation is still
produced and drawn from the full available set (repeats allowed);
otherwise it is drawn from the non-recently-visited candidates. -/
theorem c6_fallback (now : Date) (restaurants : List Restaurant)
    (history : List Visit) (date : Date)
    (hw : is_work_day date = true)
    (ha : get_available_restaurants restaurants date ≠ []) :
    ((get_available_restaurants restaurants date).filter
        (fun r => ¬ (get_recent_restaurant_names now history 7).contains r.name) = [] →
      ∃ rec, get_recommendation now restaurants history date = some rec ∧
        rec.name ∈ (get_available_restaurants restaurants date).map (·.name)) ∧
    ((get_available_restaurants restaurants date).filter
        (fun r => ¬ (get_recent_restaurant_names now history 7).contains r.name) ≠ [] →
      ∃ rec, get_recommendation now restaurants history date = some rec ∧
        rec.name ∈ ((get_available_restaurants restaurants date).filter
          (fun r => ¬ (get_recent_restaurant_names now history 7).contains r.name)).map
            (·.name)) := by
  obtain ⟨s, hmax, hsome⟩ := get_recommendation_some hw ha
  have hname := mem_calculate_scores (List.mem_reverse.1 (amaxLast_mem hmax))
  constructor
  · intro hnil
    refine ⟨toRecommendation s, hsome, ?_⟩
    have hcand : recCandidates now restaurants history date =
        get_available_restaurants restaurants date := by
      simp only [recCandidates]
      rw [if_pos (by rw [hnil]; rfl)]
    show s.name ∈ _
    exact hcand ▸ hname
  · intro hne
    refine ⟨toRecommendation s, hsome, ?_⟩
    have hcand : recCandidates now restaurants history date =
        (get_available_restaurants restaurants date).filter
          (fun r => ¬ (get_recent_restaurant_names now history 7).contains r.name) := by
      simp only [recCandidates]
      rw [if_neg (fun hc => hne (List.isEmpty_iff.1 hc))]
    show s.name ∈ _
    exact hcand ▸ hname

/-- Witness for C6: the sole restaurant was visited one day before the
current date, so the exclusion empties the candidates and the fallback
recommends it anyway. -/
theorem c6_fallback_witness :
    ∃ rec, get_recommendation ⟨1970, 1, 10⟩ [⟨"A", "a", "", "i", 5, 10⟩]
        [⟨⟨1970, 1, 9⟩, "A", 10, "i"⟩] ⟨1970, 1, 5⟩ = some rec ∧
      rec.name ∈ (get_available_restaurants [⟨"A", "a", "", "i", 5, 10⟩]
        ⟨1970, 1, 5⟩).map (·.name) :=
  (c6_fallback ⟨1970, 1, 10⟩ [⟨"A", "a", "", "i", 5, 10⟩]
      [⟨⟨1970, 1, 9⟩, "A", 10, "i"⟩] ⟨1970, 1, 5⟩ (by decide) (by decide)).1 (by decide)

/-- C7 (counterexample): when the prior history already holds a visit with
the same `(date, restaurant)` pair, adding a visit and then deleting that
pair wipes the pre-existing visit too, so the prior list is not restored. -/
theorem c7_counterexample :
    delete_visit
        (add_visit [⟨⟨1970, 1, 2⟩, "A", 10, "x"⟩] "A" 12 "y" ⟨1970, 1, 2⟩)
        ⟨1970, 1, 2⟩ "A" ≠
      [⟨⟨1970, 1, 2⟩, "A", 10, "x"⟩] := by decide

/-- C7 (amended): provided no prior visit carries the same
`(date, restaurant)` pair, `add_visit` followed by `delete_visit` on that
pair restores the prior visit list exactly. -/
theorem c7_round_trip (visits : List Visit) (restaurant : String) (price : ℚ)
    (item : String) (date : Date)
    (h : ∀ v ∈ visits, ¬ (v.date = date ∧ v.restaurant = restaurant)) :
    delete_visit (add_visit visits restaurant price item date) date restaurant =
      visits := by
  unfold add_visit delete_visit
  rw [List.filter_append]
  have h1 : visits.filter
      (fun v => ¬ (v.date = date ∧ v.restaurant = restaurant)) = visits :=
    List.filter_eq_self.2 (fun v hv => by
      simp only [decide_eq_true_eq]
      exact h v hv)
  have h2 : List.filter (fun (v : Visit) => ¬ (v.date = date ∧ v.restaurant = restaurant))
      [{ date := date, restaurant := restaurant, price := price, item := item }] =
        [] := by simp
  rw [h1, h2, List.append_nil]

/-- Witness for C7 (amended): a one-visit history to a different
restaurant survives the add/delete round trip unchanged. -/
theorem c7_round_trip_witness :
    delete_visit
        (add_visit [⟨⟨1970, 1, 2⟩, "B", 5, "z"⟩] "A" 12 "y" ⟨1970, 1, 3⟩)
        ⟨1970, 1, 3⟩ "A" =
      [⟨⟨1970, 1, 2⟩, "B", 5, "z"⟩] :=
  c7_round_trip [⟨⟨1970, 1, 2⟩, "B", 5, "z"⟩] "A" 12 "y" ⟨1970, 1, 3⟩ (by decide)

/-- C8: when multiple available restaurants share the identical highest
`final_score`, `get_recommendation` returns the first occurrence in input
iteration order: the selected scored row is preceded only by candidates
scoring strictly lower and followed only by candidates scoring no higher
(pandas `sort_values(ascending=False)` reverses the rows, takes the
stable ascending argsort, and reverses the indexer, so tied rows keep
their original order and the first tied maximum lands at `iloc[0]`). -/
theorem c8_tie_first (now : Date) (restaurants : List Restaurant)
    (history : List Visit) (date : Date)
    (hw : is_work_day date = true)
    (ha : get_available_restaurants restaurants date ≠ []) :
    ∃ s pre post,
      calculate_scores now (recCandidates now restaurants history date)
          history date = pre ++ s :: post ∧
      (∀ a ∈ pre, a.final_score < s.final_score) ∧
      (∀ a ∈ post, a.final_score ≤ s.final_score) ∧
      get_recommendation now restaurants history date =
        some (toRecommendation s) := by
  obtain ⟨s, hmax, hsome⟩ := get_recommendation_some hw ha
  obtain ⟨pre, post, hsplit, hpre, hpost⟩ := amaxLast_split hmax
  refine ⟨s, post.reverse, pre.reverse, ?_, ?_, ?_, hsome⟩
  · have hrev := congrArg List.reverse hsplit
    rw [List.reverse_reverse] at hrev
    rw [hrev]
    simp [List.reverse_append]
  · intro a ha'
    exact hpost a (List.mem_reverse.1 ha')
  · intro a ha'
    exact hpre a (List.mem_reverse.1 ha')

/-- Witness for C8 at a two-way tie input (equal price, both never
visited). -/
theorem c8_tie_first_witness :
    ∃ s pre post,
      calculate_scores ⟨1970, 1, 20⟩
          (recCandidates ⟨1970, 1, 20⟩
            [⟨"A", "a", "", "i", 5, 20⟩, ⟨"B", "b", "", "i", 5, 20⟩] [] ⟨1970, 1, 5⟩)
          [] ⟨1970, 1, 5⟩ = pre ++ s :: post ∧
      (∀ a ∈ pre, a.final_score < s.final_score) ∧
      (∀ a ∈ post, a.final_score ≤ s.final_score) ∧
      get_recommendation ⟨1970, 1, 20⟩
          [⟨"A", "a", "", "i", 5, 20⟩, ⟨"B", "b", "", "i", 5, 20⟩] [] ⟨1970, 1, 5⟩ =
        some (toRecommendation s) :=
  c8_tie_first ⟨1970, 1, 20⟩ [⟨"A", "a", "", "i", 5, 20⟩, ⟨"B", "b", "", "i", 5, 20⟩]
    [] ⟨1970, 1, 5⟩ (by decide) (by decide)

/-- C9 (counterexample): on a non-special day with the monthly average
under 20 and a recommended price of at most 25, `explain_recommendation`
emits NO budget clause at all — the explanation is the bare recency
sentence — contradicting "exactly one budget clause". -/
theorem c9_counterexample :
    budgetParts false 10 (get_monthly_stats ⟨1970, 1, 20⟩ []).current_average = [] ∧
    is_thursday ⟨1970, 1, 5⟩ = false ∧
    explain_recommendation ⟨1970, 1, 20⟩ ⟨"A", "a", "i", 10, 5, 999, 1, 0, 0⟩ []
        ⟨1970, 1, 5⟩ =
      "You\x27ve never been here before!" := by decide

/-- C9 (amended): on a non-special day the explanation holds AT MOST one
budget clause: the over-budget message (interpolating price and average)
when the average exceeds 25, the treat-yourself message (interpolating the
average only) when the average is below 20 AND the price exceeds 25, the
on-track message (interpolating the average only) when the average lies in
[20, 25], and NO budget clause when the average is below 20 and the price
is at most 25. -/
theorem c9_budget_clause (price avg : ℚ) :
    (budgetParts false price avg).length ≤ 1 ∧
    (avg > 25 → budgetParts false price avg =
      ["At " ++ toString price ++
        " SAR, this helps bring your monthly average down from " ++
        toString avg ++ " SAR."]) ∧
    (avg < 20 → price > 25 → budgetParts false price avg =
      ["Your average is low (" ++ toString avg ++
        " SAR), so you can treat yourself today!"]) ∧
    (20 ≤ avg → avg ≤ 25 → budgetParts false price avg =
      ["Your monthly average (" ++ toString avg ++ " SAR) is on track."]) ∧
    (avg < 20 → price ≤ 25 → budgetParts false price avg = []) ∧
    (∀ (now : Date) (recommendation : Recommendation) (history : List Visit)
      (date : Date),
      explain_recommendation now recommendation history date =
        String.intercalate " " (recencyParts recommendation.days_since_visit ++
          budgetParts (is_thursday date) recommendation.price
            (get_monthly_stats now history).current_average)) := by
  refine ⟨?_, ?_, ?_, ?_, ?_, fun now recommendation history date => rfl⟩
  · unfold budgetParts
    split_ifs <;> simp
  · intro h1
    unfold budgetParts
    rw [if_pos (by simp), if_pos h1]
  · intro h1 h2
    unfold budgetParts
    rw [if_pos (by simp), if_neg (by linarith), if_pos ⟨h1, h2⟩]
  · intro h1 h2
    unfold budgetParts
    rw [if_pos (by simp), if_neg (by linarith),
      if_neg (by rintro ⟨ha', -⟩; linarith), if_pos ⟨h1, h2⟩]
  · intro h1 h2
    unfold budgetParts
    rw [if_pos (by simp), if_neg (by linarith),
      if_neg (by rintro ⟨-, hp⟩; linarith),
      if_neg (by rintro ⟨ha', -⟩; linarith)]

/-- Witness for C9 (amended) in the over-budget band. -/
theorem c9_budget_clause_witness :
    budgetParts false 10 30 =
      ["At " ++ toString (10 : ℚ) ++
        " SAR, this helps bring your monthly average down from " ++
        toString (30 : ℚ) ++ " SAR."] :=
  (c9_budget_clause 10 30).2.1 (by norm_num)

/-- C10: the 7-day exclusion window and `days_since_visit` are computed
from the system clock `now`, not from the `date` argument: with the clock
held fixed, `get_recommendation` on identical arguments is deterministic,
while the same arguments under two different clock dates can return
different recommendations (here days-since-visit 1 versus 60). -/
theorem c10_clock_dependence :
    (∀ (now now' : Date) (restaurants : List Restaurant) (history : List Visit)
      (date : Date), now = now' →
      get_recommendation now restaurants history date =
        get_recommendation now' restaurants history date) ∧
    get_days_since_visit ⟨1970, 1, 7⟩ "A" [⟨⟨1970, 1, 6⟩, "A", 10, "i"⟩] = 1 ∧
    get_days_since_visit ⟨1970, 3, 7⟩ "A" [⟨⟨1970, 1, 6⟩, "A", 10, "i"⟩] = 60 ∧
    (get_recommendation ⟨1970, 1, 7⟩ [⟨"A", "a", "", "i", 5, 10⟩]
        [⟨⟨1970, 1, 6⟩, "A", 10, "i"⟩] ⟨1970, 1, 7⟩).map (·.days_since_visit) =
      some 1 ∧
    (get_recommendation ⟨1970, 3, 7⟩ [⟨"A", "a", "", "i", 5, 10⟩]
        [⟨⟨1970, 1, 6⟩, "A", 10, "i"⟩] ⟨1970, 1, 7⟩).map (·.days_since_visit) =
      some 60 ∧
    (some (1 : ℤ) ≠ some (60 : ℤ)) := by
  refine ⟨fun now now' restaurants history date heq => heq ▸ rfl, by decide, by decide,
    ?_, ?_, by decide⟩
  · norm_num [get_recommendation, get_available_restaurants, get_day_name, is_work_day,
      get_recent_restaurant_names, get_recent_visits, dateLe, Date.ofOrdinal,
      calculate_scores, get_monthly_stats, get_month_visits, get_days_since_visit,
      maxVisitDate, recencyScore, budgetScore, is_thursday, Date.weekday, Date.toOrdinal,
      Int.toNat, sort_values_desc, sortAsc, insertAsc, toRecommendation]
    exact ⟨_, ⟨by decide, rfl⟩, rfl⟩
  · norm_num [get_recommendation, get_available_restaurants, get_day_name, is_work_day,
      get_recent_restaurant_names, get_recent_visits, dateLe, Date.ofOrdinal,
      calculate_scores, get_monthly_stats, get_month_visits, get_days_since_visit,
      maxVisitDate, recencyScore, budgetScore, is_thursday, Date.weekday, Date.toOrdinal,
      Int.toNat, sort_values_desc, sortAsc, insertAsc, toRecommendation]
    exact ⟨_, ⟨by decide, rfl⟩, rfl⟩

/-- Witness for C10: the determinism conjunct applied at a concrete input. -/
theorem c10_clock_dependence_witness :
    get_recommendation ⟨1970, 1, 7⟩ [⟨"A", "a", "", "i", 5, 10⟩] [] ⟨1970, 1, 7⟩ =
      get_recommendation ⟨1970, 1, 7⟩ [⟨"A", "a", "", "i", 5, 10⟩] [] ⟨1970, 1, 7⟩ :=
  c10_clock_dependence.1 ⟨1970, 1, 7⟩ ⟨1970, 1, 7⟩ [⟨"A", "a", "", "i", 5, 10⟩] []
    ⟨1970, 1, 7⟩ rfl
